import Mathlib

/-!
Verification development for the meta-client-sdk Go sources: the car-file
packaging pipeline (`CreateGoCarFiles`, `createFilesDescFromManifest`,
`WriteCarFilesToCsvFile`, `RestoreCarToFiles`) and the remote-catalog client
(`MetaClient` and its JSON-RPC operations).  Strings are modelled as lists of
characters; Go `int`/`int64` values are modelled as `Int`; external effects
(file system, chunker, JSON decoding, checksums, network) are supplied by
explicit environment records.
-/

abbrev Str := List Char

def pathSep : Char := '/'

/-- Model of Go `filepath.Join` restricted to two components. -/
def filepathJoin (a b : Str) : Str := a ++ pathSep :: b

/-- Model of Go `filepath.Base`: the last path component. -/
def filepathBase (p : Str) : Str := (p.splitOn pathSep).getLastD p

/-- Model of Go `strings.Split(line, ",")`. -/
def splitComma (line : Str) : List Str := line.splitOn ','

/-- Join a list of fields with the comma separator (reference join). -/
def joinComma : List Str → Str
  | [] => []
  | [f] => f
  | f :: g :: fs => f ++ ',' :: joinComma (g :: fs)

/-- The string handed to the JSON decoder: `fields[4]` followed by
`"," + fields[i]` for each `i ≥ 5`, exactly as the loop in
`createFilesDescFromManifest` builds `carFileDetail`. -/
def detailField (fields : List Str) : Str :=
  (fields.drop 5).foldl (fun acc f => acc ++ [','] ++ f) (fields.getD 4 [])

/-- Model of Go `strconv.FormatInt(i, 10)` / `strconv.Itoa`. -/
def intToStr (i : Int) : Str := (toString i).toList

/-- Render an optional integer: decimal digits when present, empty otherwise. -/
def optIntToStr : Option Int → Str
  | none => []
  | some i => intToStr i

/-- Error kinds produced by the packaging pipeline. -/
inductive GoErr where
  | ioError
  | configurationError
  | manifestFormatError
  | manifestParseError
  | checksumError
  | sliceError
  deriving DecidableEq

/-- Outcome of running a piece of Go code: normal value, returned error, or a
runtime panic (e.g. an out-of-bounds slice index). -/
inductive RunResult (α : Type) where
  | ok (a : α)
  | error (e : GoErr)
  | panic
  deriving DecidableEq

structure ManifestLink where
  Name : Str
  Hash : Str
  Size : Int
  deriving DecidableEq

structure ManifestDetail where
  Name : Str
  Hash : Str
  Size : Int
  Link : List ManifestLink
  deriving DecidableEq

structure FileDesc where
  Uuid : Str
  SourceFileName : Str
  SourceFilePath : Str
  SourceFileMd5 : Str
  SourceFileSize : Int
  CarFileName : Str
  CarFilePath : Str
  CarFileMd5 : Str
  CarFileUrl : Str
  CarFileSize : Int
  PayloadCid : Str
  PieceCid : Str
  StartEpoch : Option Int
  SourceId : Option Int
  deriving DecidableEq

/-- The Go zero value `FileDesc{}`. -/
def emptyFileDesc : FileDesc :=
  { Uuid := [], SourceFileName := [], SourceFilePath := [], SourceFileMd5 := []
    SourceFileSize := 0, CarFileName := [], CarFilePath := [], CarFileMd5 := []
    CarFileUrl := [], CarFileSize := 0, PayloadCid := [], PieceCid := []
    StartEpoch := none, SourceId := none }

structure CmdGoCar where
  OutputDir : Str
  InputDir : Str
  GenerateMd5 : Bool
  GocarFileSizeLimit : Int
  GocarFolderBased : Bool
  Parallel : Int

/-- Environment of external effects consumed by the packaging pipeline:
directory creation, directory listing, the chunker, manifest reading, JSON
decoding, lenient integer parsing, file existence, MD5 digests, and the
catalog write steps. -/
structure GoEnv where
  createOutDirResult : Except GoErr Unit
  readDirResult : Except GoErr (List Str)
  chunkResult : Str → Except GoErr Unit
  manifestLines : Except GoErr (List Str)
  decodeDetail : Str → Option ManifestDetail
  getInt64FromStr : Str → Int
  fileExists : Str → Bool
  md5sum : Str → Except GoErr Str
  mkdirAllOk : Bool
  writeJsonOk : Bool
  csvCreateOk : Bool
  csvWriteOk : Bool

def JSON_FILE_NAME_CAR_UPLOAD : Str := "car.json".toList
def CSV_FILE_NAME_CAR_UPLOAD : Str := "car.csv".toList

/-- The fixed part of a descriptor built from one manifest row before policy
resolution (lines 221-232 of the reconciler). -/
def mkBaseDesc (cfg : CmdGoCar) (env : GoEnv) (fields : List Str) : FileDesc :=
  let payloadCid := fields.getD 0 []
  let carFileName := payloadCid ++ ".car".toList
  { emptyFileDesc with
      PayloadCid := payloadCid
      CarFileName := carFileName
      CarFileUrl := carFileName
      CarFilePath := filepathJoin cfg.OutputDir carFileName
      PieceCid := fields.getD 2 []
      CarFileSize := env.getInt64FromStr (fields.getD 3 []) }

/-- Policy resolution: whole-directory sums all link sizes, per-entry reads
`Link[0]` without a guard (a panic when the list is empty). -/
def resolveSource (cfg : CmdGoCar) (detail : ManifestDetail) (d : FileDesc) :
    RunResult FileDesc :=
  if cfg.GocarFolderBased then
    .ok { d with
            SourceFileName := filepathBase cfg.InputDir
            SourceFilePath := cfg.InputDir
            SourceFileSize := detail.Link.foldl (fun s l => s + l.Size) 0 }
  else
    match detail.Link with
    | [] => .panic
    | l0 :: _ =>
        .ok { d with
                SourceFileName := l0.Name
                SourceFilePath := filepathJoin cfg.InputDir l0.Name
                SourceFileSize := l0.Size }

/-- Optional checksum population: source digest only when the source file
exists (non-fatal skip otherwise), archive digest unconditionally. -/
def applyMd5 (cfg : CmdGoCar) (env : GoEnv) (d : FileDesc) : RunResult FileDesc :=
  if cfg.GenerateMd5 then
    match
      (if env.fileExists d.SourceFilePath then
        match env.md5sum d.SourceFilePath with
        | .error _ => RunResult.error .checksumError
        | .ok m => RunResult.ok { d with SourceFileMd5 := m }
      else RunResult.ok d) with
    | .ok d2 =>
        match env.md5sum d2.CarFilePath with
        | .error _ => .error .checksumError
        | .ok m => .ok { d2 with CarFileMd5 := m }
    | .error e => .error e
    | .panic => .panic
  else .ok d

/-- Processing of one raw manifest data line (`fields` is the naive comma
split of the line). -/
def processRow (cfg : CmdGoCar) (env : GoEnv) (line : Str) : RunResult FileDesc :=
  if (splitComma line).length < 5 then .error .manifestFormatError
  else
    match env.decodeDetail (detailField (splitComma line)) with
    | none => .error .manifestParseError
    | some detail =>
        match resolveSource cfg detail (mkBaseDesc cfg env (splitComma line)) with
        | .ok d => applyMd5 cfg env d
        | .error e => .error e
        | .panic => .panic

/-- Sequential fail-fast processing of the manifest data lines. -/
def processRows (cfg : CmdGoCar) (env : GoEnv) : List Str → RunResult (List FileDesc)
  | [] => .ok []
  | l :: ls =>
      match processRow cfg env l with
      | .ok d =>
          match processRows cfg env ls with
          | .ok ds => .ok (d :: ds)
          | .error e => .error e
          | .panic => .panic
      | .error e => .error e
      | .panic => .panic

/-- The fixed 15-column header written by `WriteCarFilesToCsvFile`. -/
def csvHeaders : List Str :=
  ["uuid".toList, "source_file_name".toList, "source_file_path".toList,
   "source_file_md5".toList, "source_file_size".toList, "car_file_name".toList,
   "car_file_path".toList, "car_file_md5".toList, "car_file_url".toList,
   "car_file_size".toList, "pay_load_cid".toList, "piece_cid".toList,
   "start_epoch".toList, "source_id".toList, "deals".toList]

/-- One data row of the tabular export (the `columns` slice built per
descriptor, the final `deals` column always empty). -/
def descColumns (d : FileDesc) : List Str :=
  [d.Uuid, d.SourceFileName, d.SourceFilePath, d.SourceFileMd5,
   intToStr d.SourceFileSize, d.CarFileName, d.CarFilePath, d.CarFileMd5,
   d.CarFileUrl, intToStr d.CarFileSize, d.PayloadCid, d.PieceCid,
   optIntToStr d.StartEpoch, optIntToStr d.SourceId, []]

/-- All rows of the tabular export, header first. -/
def csvRows (carFiles : List FileDesc) : List (List Str) :=
  csvHeaders :: carFiles.map descColumns

/-- Tabular write step: result together with the catalog files it creates. -/
def WriteCarFilesToCsvFile (env : GoEnv) (outDir csvFileName : Str) :
    RunResult Unit × List Str :=
  if env.csvCreateOk then
    if env.csvWriteOk then (.ok (), [filepathJoin outDir csvFileName])
    else (.error .ioError, [filepathJoin outDir csvFileName])
  else (.error .ioError, [])

/-- JSON write step: result together with the catalog files it creates. -/
def WriteFileDescsToJsonFile (env : GoEnv) (outputDir jsonFileName : Str) :
    RunResult Str × List Str :=
  if env.writeJsonOk then
    (.ok (filepathJoin outputDir jsonFileName), [filepathJoin outputDir jsonFileName])
  else (.error .ioError, [])

/-- `WriteCarFilesToFiles`: ensure the directory, write JSON, then CSV. -/
def WriteCarFilesToFiles (env : GoEnv) (outputDir jsonFilename csvFileName : Str) :
    RunResult Str × List Str :=
  if env.mkdirAllOk then
    match WriteFileDescsToJsonFile env outputDir jsonFilename with
    | (.ok p, w1) =>
        match WriteCarFilesToCsvFile env outputDir csvFileName with
        | (.ok _, w2) => (.ok p, w1 ++ w2)
        | (.error e, w2) => (.error e, w1 ++ w2)
        | (.panic, w2) => (.panic, w1 ++ w2)
    | (.error e, w1) => (.error e, w1)
    | (.panic, w1) => (.panic, w1)
  else (.error .ioError, [])

/-- `createFilesDescFromManifest`: read the manifest, skip the header line,
process every data line fail-fast, then hand the list to the writer.  The
second component lists the catalog files written during the run. -/
def createFilesDescFromManifest (cfg : CmdGoCar) (env : GoEnv) :
    RunResult (List FileDesc) × List Str :=
  match env.manifestLines with
  | .error e => (.error e, [])
  | .ok lines =>
      match processRows cfg env lines.tail with
      | .ok fileDescs =>
          match WriteCarFilesToFiles env cfg.OutputDir
              JSON_FILE_NAME_CAR_UPLOAD CSV_FILE_NAME_CAR_UPLOAD with
          | (.ok _, w) => (.ok fileDescs, w)
          | (.error e, w) => (.error e, w)
          | (.panic, w) => (.panic, w)
      | .error e => (.error e, [])
      | .panic => (.panic, [])

/-- Per-entry chunking loop: one chunker invocation per directory entry,
aborting on the first failure. -/
def goChunkAll (env : GoEnv) : List Str → Except GoErr Unit
  | [] => .ok ()
  | n :: ns =>
      match env.chunkResult n with
      | .error e => .error e
      | .ok _ => goChunkAll env ns

/-- `CreateGoCarFiles`: ensure the output directory, validate the size limit,
list the input directory, drive the chunker per policy, then reconcile. -/
def CreateGoCarFiles (cfg : CmdGoCar) (env : GoEnv) :
    RunResult (List FileDesc) × List Str :=
  match env.createOutDirResult with
  | .error e => (.error e, [])
  | .ok _ =>
      if cfg.GocarFileSizeLimit ≤ 0 then (.error .configurationError, [])
      else
        match env.readDirResult with
        | .error e => (.error e, [])
        | .ok srcFiles =>
            match
              (if cfg.GocarFolderBased then
                env.chunkResult (filepathBase cfg.InputDir)
              else goChunkAll env srcFiles) with
            | .error e => (.error e, [])
            | .ok _ => createFilesDescFromManifest cfg env

/-- The two external restore primitives. -/
inductive RestorePrim where
  | carTo
  | merge
  deriving DecidableEq

/-- Environment of `RestoreCarToFiles`: the directory-creation outcome plus
the (never observed) outcomes of the extract and merge primitives. -/
structure RestoreEnv where
  createOutDirResult : Except GoErr Unit
  carToOutcome : Bool
  mergeOutcome : Bool

/-- `RestoreCarToFiles`: ensure the output directory, then invoke `CarTo` and
`Merge` without inspecting any result, and report success.  The second
component records which primitives were invoked. -/
def RestoreCarToFiles (cfg : CmdGoCar) (env : RestoreEnv) :
    Except GoErr Unit × List RestorePrim :=
  match env.createOutDirResult with
  | .error e => (.error e, [])
  | .ok _ => (.ok (), [RestorePrim.carTo, RestorePrim.merge])

/-! ## Remote-catalog client (`client.go`) -/

/-- Aria2 download configuration (details irrelevant to the client logic). -/
structure Aria2Conf where
  dummy : Unit := ()
  deriving DecidableEq

structure MetaConf where
  MetaServer : String := ""
  IpfsApi : String := ""
  IpfsGateway : String := ""
  Aria2Conf : Option Aria2Conf := none
  deriving DecidableEq

structure MetaClient where
  key : String
  token : String
  conf : Option MetaConf
  deriving DecidableEq

structure IpfsData where
  IpfsCid : String
  SourceName : String
  DataSize : Int
  IsDirectory : Bool
  DownloadUrl : String
  deriving DecidableEq

structure DatasetListReq where
  DatasetName : String
  PageNum : Int
  Size : Int
  deriving DecidableEq

structure SourceFileStatusReq where
  DatasetName : String
  IpfsCid : String
  PageNum : Int
  Size : Int
  deriving DecidableEq

structure RebuildReq where
  DatasetID : Int
  PayloadCIDs : List String
  deriving DecidableEq

/-- One positional element of the JSON-RPC `Params` array
(Go `[]interface\x7b\x7d` restricted to the shapes actually passed). -/
inductive RpcParam where
  | str (s : String)
  | ipfsList (l : List IpfsData)
  | listReq (r : DatasetListReq)
  | statusReq (r : SourceFileStatusReq)
  | rebuildReq (r : RebuildReq)
  deriving DecidableEq

structure JsonRpcParams where
  JsonRpc : String
  Method : String
  Params : List RpcParam
  Id : Int
  deriving DecidableEq

abbrev Bytes := List Nat

/-- The success/failure envelope common to every server response. -/
structure RpcResult (α : Type) where
  Code : String
  Message : String
  Data : α

structure DatasetListPager where
  dummy : Unit := ()

structure SourceFileStatusPager where
  dummy : Unit := ()

structure IpfsDataDetail where
  dummy : Unit := ()

structure DownloadFileInfo where
  SourceName : String
  IsDirectory : Bool
  DownloadUrl : String

structure RebuildData where
  dummy : Unit := ()

/-- Client errors (each one string error of `client.go`). -/
inductive ClientErr where
  | keyTokenRequired
  | metaServerRequired
  | ipfsDataRequired
  | netErr
  | decodeErr
  | serverErr (msg : String)
  deriving DecidableEq

/-- Environment of the client: the network call made by `httpRequestWithKey`
and the JSON decoding of each response shape. -/
structure ClientEnv where
  net : String → JsonRpcParams → Except ClientErr Bytes
  decodeStore : Bytes → Option (RpcResult Int)
  decodeDatasetList : Bytes → Option (RpcResult DatasetListPager)
  decodeStatus : Bytes → Option (RpcResult SourceFileStatusPager)
  decodeSourceInfo : Bytes → Option (RpcResult (List IpfsDataDetail))
  decodeDownloadInfo : Bytes → Option (RpcResult (List DownloadFileInfo))
  decodeRebuild : Bytes → Option (RpcResult (List RebuildData))

/-- `httpPost`: credential and configuration validation, then the network
request.  The second component lists the requests actually issued. -/
def httpPost (m : MetaClient) (env : ClientEnv) (params : JsonRpcParams) :
    Except ClientErr Bytes × List JsonRpcParams :=
  if m.key = "" ∨ m.token = "" then (.error .keyTokenRequired, [])
  else
    match m.conf with
    | none => (.error .metaServerRequired, [])
    | some conf => (env.net conf.MetaServer params, [params])

/-- Unwrap a decoded response envelope: decode failure, non-success code, or
the data. -/
def unwrapResult {α : Type} (dec : Option (RpcResult α)) :
    Except ClientErr α :=
  match dec with
  | none => .error .decodeErr
  | some res =>
      if res.Code ≠ "success" then .error (.serverErr res.Message)
      else .ok res.Data

/-- The shape shared by every remote operation: `httpPost`, then decode the
response and unwrap its envelope. -/
def postAndDecode {α : Type} (m : MetaClient) (env : ClientEnv)
    (p : JsonRpcParams) (dec : Bytes → Option (RpcResult α)) :
    Except ClientErr α × List JsonRpcParams :=
  match httpPost m env p with
  | (.error e, reqs) => (.error e, reqs)
  | (.ok response, reqs) => (unwrapResult (dec response), reqs)

/-- `Backup`: register uploaded files under a dataset name. -/
def Backup (m : MetaClient) (env : ClientEnv) (datasetName : String)
    (ipfsDataList : List IpfsData) : Except ClientErr Int × List JsonRpcParams :=
  if ipfsDataList.length = 0 then (.error .ipfsDataRequired, [])
  else
    postAndDecode m env
      ⟨"2.0", "meta.StoreSourceFile", [.str datasetName, .ipfsList ipfsDataList], 1⟩
      env.decodeStore

/-- `List`: paginated listing of datasets (named `ListDatasets` here because
`List` is taken in Lean). -/
def ListDatasets (m : MetaClient) (env : ClientEnv) (datasetName : String)
    (pageNum size : Int) :
    Except ClientErr DatasetListPager × List JsonRpcParams :=
  postAndDecode m env
    ⟨"2.0", "meta.GetDatasetList", [.listReq ⟨datasetName, pageNum, size⟩], 1⟩
    env.decodeDatasetList

/-- `ListStatus`: per-file status of backup files. -/
def ListStatus (m : MetaClient) (env : ClientEnv) (datasetName ipfsCid : String)
    (pageNum size : Int) :
    Except ClientErr SourceFileStatusPager × List JsonRpcParams :=
  postAndDecode m env
    ⟨"2.0", "meta.GetSourceFileStatus",
      [.statusReq ⟨datasetName, ipfsCid, pageNum, size⟩], 1⟩
    env.decodeStatus

/-- `SourceFileInfo`: look up details by payload identifier. -/
def SourceFileInfo (m : MetaClient) (env : ClientEnv) (ipfsCid : String) :
    Except ClientErr (List IpfsDataDetail) × List JsonRpcParams :=
  postAndDecode m env ⟨"2.0", "meta.GetSourceFileInfo", [.str ipfsCid], 1⟩
    env.decodeSourceInfo

/-- `DownloadFileInfo` operation: look up download locations. -/
def DownloadFileInfoOp (m : MetaClient) (env : ClientEnv) (ipfsCid : String) :
    Except ClientErr (List DownloadFileInfo) × List JsonRpcParams :=
  postAndDecode m env
    ⟨"2.0", "meta.GetDownloadFileInfoByIpfsCid", [.str ipfsCid], 1⟩
    env.decodeDownloadInfo

/-- `Rebuild`: request a rebuild of a dataset's files. -/
def Rebuild (m : MetaClient) (env : ClientEnv) (datasetId : Int)
    (ipfsCids : List String) :
    Except ClientErr (List RebuildData) × List JsonRpcParams :=
  postAndDecode m env
    ⟨"2.0", "meta.DatasetRebuild", [.rebuildReq ⟨datasetId, ipfsCids⟩], 1⟩
    env.decodeRebuild

/-- True exactly when a client call returned an error. -/
def isClientError {α : Type} : Except ClientErr α → Bool
  | .error _ => true
  | .ok _ => false

/-! ## Concrete inputs used by the witnesses -/

def wLine : Str := "p,x,q,7,d".toList

def wDetail : ManifestDetail :=
  { Name := [], Hash := [], Size := 0
    Link := [⟨"f".toList, [], 3⟩, ⟨"g".toList, [], 4⟩] }

/-- Whole-directory configuration without checksums. -/
def wCfgF : CmdGoCar :=
  { OutputDir := "o".toList, InputDir := "i".toList, GenerateMd5 := false
    GocarFileSizeLimit := 1, GocarFolderBased := true, Parallel := 0 }

/-- Per-entry configuration without checksums. -/
def wCfgP : CmdGoCar :=
  { OutputDir := "o".toList, InputDir := "i".toList, GenerateMd5 := false
    GocarFileSizeLimit := 1, GocarFolderBased := false, Parallel := 0 }

def wEnv : GoEnv :=
  { createOutDirResult := .ok (), readDirResult := .ok []
    chunkResult := fun _ => .ok ()
    manifestLines := .ok ["h".toList, wLine]
    decodeDetail := fun _ => some wDetail
    getInt64FromStr := fun _ => 7
    fileExists := fun _ => false
    md5sum := fun _ => .ok []
    mkdirAllOk := true, writeJsonOk := true
    csvCreateOk := true, csvWriteOk := true }

/-- Environment whose manifest holds one short data row. -/
def wEnvShort : GoEnv :=
  { wEnv with manifestLines := .ok ["h".toList, "a,b".toList] }

/-- Environment whose decoded detail has an empty link list. -/
def wEnvEmptyLink : GoEnv :=
  { wEnv with decodeDetail := fun _ => some { Name := [], Hash := [], Size := 0, Link := [] } }

/-- The descriptor the whole-directory run produces for `wLine`. -/
def wDescF : FileDesc :=
  { Uuid := [], SourceFileName := "i".toList, SourceFilePath := "i".toList
    SourceFileMd5 := [], SourceFileSize := 7, CarFileName := "p.car".toList
    CarFilePath := "o/p.car".toList, CarFileMd5 := [], CarFileUrl := "p.car".toList
    CarFileSize := 7, PayloadCid := "p".toList, PieceCid := "q".toList
    StartEpoch := none, SourceId := none }

/-- Configuration with a non-positive archive size limit. -/
def wCfgZero : CmdGoCar := { wCfgF with GocarFileSizeLimit := 0 }

/-- Modelled from the spec's words only, for comparison with the code: the
header row that claim C4 asserts, whose first column is named `id`. -/
def specHeaderRow : List Str :=
  ["id".toList, "source_file_name".toList, "source_file_path".toList,
   "source_file_md5".toList, "source_file_size".toList, "car_file_name".toList,
   "car_file_path".toList, "car_file_md5".toList, "car_file_url".toList,
   "car_file_size".toList, "pay_load_cid".toList, "piece_cid".toList,
   "start_epoch".toList, "source_id".toList, "deals".toList]

def wREnv : RestoreEnv :=
  { createOutDirResult := .ok (), carToOutcome := true, mergeOutcome := true }

/-- Same directory-creation outcome as `wREnv`, but the extract and merge
primitives fail. -/
def wREnv2 : RestoreEnv :=
  { createOutDirResult := .ok (), carToOutcome := false, mergeOutcome := false }

/-- A client whose key is empty. -/
def wClient : MetaClient := { key := "", token := "t", conf := none }

def wClientEnv : ClientEnv :=
  { net := fun _ _ => .ok []
    decodeStore := fun _ => none
    decodeDatasetList := fun _ => none
    decodeStatus := fun _ => none
    decodeSourceInfo := fun _ => none
    decodeDownloadInfo := fun _ => none
    decodeRebuild := fun _ => none }

/-! ## Helper lemmas about comma joining and splitting -/

theorem joinComma_intercalate (l : List Str) : joinComma l = [','].intercalate l := by
  induction l with
  | nil => simp [joinComma, List.intercalate]
  | cons f fs ih =>
      cases fs with
      | nil => simp [joinComma, List.intercalate]
      | cons g gs =>
          rw [joinComma, ih]
          simp [List.intercalate, List.intersperse_cons_cons]

theorem joinComma_append (l₁ l₂ : List Str) (h₁ : l₁ ≠ []) (h₂ : l₂ ≠ []) :
    joinComma (l₁ ++ l₂) = joinComma l₁ ++ ',' :: joinComma l₂ := by
  induction l₁ with
  | nil => exact absurd rfl h₁
  | cons f fs ih =>
      cases fs with
      | nil =>
          cases l₂ with
          | nil => exact absurd rfl h₂
          | cons g gs => simp [joinComma]
      | cons g gs =>
          have step := ih (by simp)
          simp only [List.cons_append] at step
          show f ++ ',' :: joinComma (g :: (gs ++ l₂))
              = (f ++ ',' :: joinComma (g :: gs)) ++ ',' :: joinComma l₂
          rw [step]
          simp [List.append_assoc]

theorem joinComma_step (a f : Str) (fs : List Str) :
    joinComma ((a ++ [','] ++ f) :: fs) = a ++ ',' :: joinComma (f :: fs) := by
  cases fs with
  | nil => simp [joinComma]
  | cons g gs => simp [joinComma, List.append_assoc]

theorem foldl_joinComma (fs : List Str) :
    ∀ a, fs.foldl (fun acc f => acc ++ [','] ++ f) a = joinComma (a :: fs) := by
  induction fs with
  | nil => intro a; simp [joinComma]
  | cons f fs ih =>
      intro a
      rw [List.foldl_cons, ih, joinComma_step]
      rfl

theorem detailField_eq_joinComma_drop (fields : List Str) (h : 5 ≤ fields.length) :
    detailField fields = joinComma (fields.drop 4) := by
  have h4 : 4 < fields.length := by omega
  rw [detailField, foldl_joinComma, List.getD_eq_getElem fields [] h4,
    ← List.drop_eq_getElem_cons h4]

/-! ## Helper lemmas about row processing -/

theorem resolveSource_ok_preserves (cfg : CmdGoCar) (detail : ManifestDetail)
    (d d' : FileDesc) (h : resolveSource cfg detail d = .ok d') :
    d'.CarFileName = d.CarFileName ∧ d'.CarFileUrl = d.CarFileUrl ∧
    d'.PayloadCid = d.PayloadCid ∧ d'.SourceFileMd5 = d.SourceFileMd5 ∧
    d'.CarFileMd5 = d.CarFileMd5 := by
  by_cases hf : cfg.GocarFolderBased
  · rw [resolveSource, if_pos hf] at h
    cases h
    simp
  · rw [resolveSource, if_neg hf] at h
    cases hl : detail.Link with
    | nil => rw [hl] at h; simp at h
    | cons l0 ls => rw [hl] at h; cases h; simp

theorem resolveSource_ok_size (cfg : CmdGoCar) (detail : ManifestDetail)
    (d d' : FileDesc) (h : resolveSource cfg detail d = .ok d') :
    (cfg.GocarFolderBased = true →
      d'.SourceFileSize = detail.Link.foldl (fun s l => s + l.Size) 0) ∧
    (cfg.GocarFolderBased = false →
      ∀ l0 ls, detail.Link = l0 :: ls → d'.SourceFileSize = l0.Size) := by
  by_cases hf : cfg.GocarFolderBased
  · rw [resolveSource, if_pos hf] at h
    cases h
    constructor
    · intro _; simp
    · intro hc; rw [hf] at hc; cases hc
  · rw [resolveSource, if_neg hf] at h
    cases hl : detail.Link with
    | nil => rw [hl] at h; simp at h
    | cons l0 ls =>
        rw [hl] at h
        cases h
        constructor
        · intro hc; rw [hc] at hf; exact absurd rfl hf
        · intro _ l0' ls' hll
          cases hll
          simp

theorem foldl_size_sum (L : List ManifestLink) :
    ∀ a : Int, L.foldl (fun s l => s + l.Size) a
      = a + (L.map (fun l => l.Size)).sum := by
  induction L with
  | nil => intro a; simp
  | cons x xs ih =>
      intro a
      rw [List.foldl_cons, ih, List.map_cons, List.sum_cons]
      ring

theorem applyMd5_of_not_md5 (cfg : CmdGoCar) (env : GoEnv) (d : FileDesc)
    (h : cfg.GenerateMd5 = false) : applyMd5 cfg env d = .ok d := by
  rw [applyMd5, h]
  simp

theorem applyMd5_ok_preserves (cfg : CmdGoCar) (env : GoEnv) (d d' : FileDesc)
    (h : applyMd5 cfg env d = .ok d') :
    d'.CarFileName = d.CarFileName ∧ d'.CarFileUrl = d.CarFileUrl ∧
    d'.PayloadCid = d.PayloadCid ∧ d'.SourceFileSize = d.SourceFileSize := by
  rw [applyMd5] at h
  split at h
  · split at h
    · next d2 heq =>
        split at h
        · simp at h
        · next m2 hc =>
            cases h
            split at heq
            · split at heq
              · simp at heq
              · next m hm => cases heq; simp
            · cases heq; simp
    · simp at h
    · simp at h
  · cases h
    exact ⟨rfl, rfl, rfl, rfl⟩

theorem processRow_ok_inv (cfg : CmdGoCar) (env : GoEnv) (line : Str)
    (d' : FileDesc) (h : processRow cfg env line = .ok d') :
    ∃ detail d,
      5 ≤ (splitComma line).length ∧
      env.decodeDetail (detailField (splitComma line)) = some detail ∧
      resolveSource cfg detail (mkBaseDesc cfg env (splitComma line)) = .ok d ∧
      applyMd5 cfg env d = .ok d' := by
  rw [processRow] at h
  split at h
  · simp at h
  · next hlen =>
      split at h
      · simp at h
      · next detail hdec =>
          split at h
          · next d hres => exact ⟨detail, d, by omega, hdec, hres, h⟩
          · simp at h
          · simp at h

theorem mkBaseDesc_car_fields (cfg : CmdGoCar) (env : GoEnv) (fields : List Str) :
    (mkBaseDesc cfg env fields).CarFileName
        = (mkBaseDesc cfg env fields).PayloadCid ++ ".car".toList ∧
    (mkBaseDesc cfg env fields).CarFileUrl = (mkBaseDesc cfg env fields).CarFileName ∧
    (mkBaseDesc cfg env fields).SourceFileMd5 = [] ∧
    (mkBaseDesc cfg env fields).CarFileMd5 = [] := by
  simp [mkBaseDesc, emptyFileDesc]

theorem processRows_ok_of_mem (cfg : CmdGoCar) (env : GoEnv) :
    ∀ (L : List Str) (ds : List FileDesc), processRows cfg env L = .ok ds →
      ∀ l ∈ L, ∃ d, processRow cfg env l = .ok d := by
  intro L
  induction L with
  | nil => intro ds _ l hl; simp at hl
  | cons l0 ls ih =>
      intro ds h l hl
      rw [processRows] at h
      cases hr : processRow cfg env l0 with
      | ok d0 =>
          rw [hr] at h
          cases hrs : processRows cfg env ls with
          | ok ds0 =>
              rw [hrs] at h
              rcases List.mem_cons.mp hl with h0 | hmem
              · exact ⟨d0, h0 ▸ hr⟩
              · exact ih ds0 hrs l hmem
          | error e => rw [hrs] at h; simp at h
          | panic => rw [hrs] at h; simp at h
      | error e => rw [hr] at h; simp at h
      | panic => rw [hr] at h; simp at h

theorem processRows_mem_of_ok (cfg : CmdGoCar) (env : GoEnv) :
    ∀ (L : List Str) (ds : List FileDesc), processRows cfg env L = .ok ds →
      ∀ d ∈ ds, ∃ l ∈ L, processRow cfg env l = .ok d := by
  intro L
  induction L with
  | nil =>
      intro ds h d hd
      rw [processRows] at h
      cases h
      simp at hd
  | cons l0 ls ih =>
      intro ds h d hd
      rw [processRows] at h
      cases hr : processRow cfg env l0 with
      | ok d0 =>
          rw [hr] at h
          cases hrs : processRows cfg env ls with
          | ok ds0 =>
              rw [hrs] at h
              cases h
              rcases List.mem_cons.mp hd with h0 | hmem
              · exact ⟨l0, List.mem_cons_self l0 ls, h0 ▸ hr⟩
              · rcases ih ds0 hrs d hmem with ⟨l, hl, hok⟩
                exact ⟨l, List.mem_cons_of_mem l0 hl, hok⟩
          | error e => rw [hrs] at h; simp at h
          | panic => rw [hrs] at h; simp at h
      | error e => rw [hr] at h; simp at h
      | panic => rw [hr] at h; simp at h

theorem createFiles_ok_inv (cfg : CmdGoCar) (env : GoEnv) (ds : List FileDesc)
    (h : (createFilesDescFromManifest cfg env).1 = .ok ds) :
    ∃ lines, env.manifestLines = .ok lines ∧
      processRows cfg env lines.tail = .ok ds := by
  rw [createFilesDescFromManifest] at h
  split at h
  · simp at h
  · next lines hm =>
      split at h
      · split at h
        · next p w hw => cases h; exact ⟨lines, hm, by assumption⟩
        · simp at h
        · simp at h
      · simp at h
      · simp at h

/-- C1: for every raw manifest data line with at least 5 comma-separated
fields, the string handed to the JSON decoder (`carFileDetail`) equals the
fields from index 4 onward rejoined with the comma separator, and therefore
equals the suffix of the original line that begins at the fifth field. -/
theorem c1_rejoined_detail_is_suffix (line : Str)
    (h : 5 ≤ (splitComma line).length) :
    detailField (splitComma line) = joinComma ((splitComma line).drop 4) ∧
    line = joinComma ((splitComma line).take 4) ++ ','
      :: detailField (splitComma line) := by
  have hd := detailField_eq_joinComma_drop _ h
  refine ⟨hd, ?_⟩
  have hline : [','].intercalate (splitComma line) = line :=
    List.intercalate_splitOn line ','
  have hsplit : (splitComma line).take 4 ++ (splitComma line).drop 4
      = splitComma line := List.take_append_drop 4 _
  have ht : (splitComma line).take 4 ≠ [] := by
    have hlen : ((splitComma line).take 4).length = 4 := by
      rw [List.length_take]; omega
    intro hn
    rw [hn] at hlen
    simp at hlen
  have hdr : (splitComma line).drop 4 ≠ [] := by
    have hlen : ((splitComma line).drop 4).length = (splitComma line).length - 4 :=
      List.length_drop 4 _
    intro hn
    rw [hn] at hlen
    simp at hlen
    omega
  calc line = [','].intercalate (splitComma line) := hline.symm
    _ = joinComma (splitComma line) := (joinComma_intercalate _).symm
    _ = joinComma ((splitComma line).take 4 ++ (splitComma line).drop 4) := by
          rw [hsplit]
    _ = joinComma ((splitComma line).take 4) ++ ','
          :: joinComma ((splitComma line).drop 4) := joinComma_append _ _ ht hdr
    _ = _ := by rw [hd]

/-- Witness for C1 at the concrete line `a,b,c,d,e,f`. -/
theorem c1_rejoined_detail_is_suffix_witness :
    5 ≤ (splitComma ("a,b,c,d,e,f".toList)).length ∧
    (detailField (splitComma ("a,b,c,d,e,f".toList))
        = joinComma ((splitComma ("a,b,c,d,e,f".toList)).drop 4) ∧
      "a,b,c,d,e,f".toList
        = joinComma ((splitComma ("a,b,c,d,e,f".toList)).take 4) ++ ','
          :: detailField (splitComma ("a,b,c,d,e,f".toList))) :=
  ⟨by decide, c1_rejoined_detail_is_suffix ("a,b,c,d,e,f".toList) (by decide)⟩

/-- C2: a raw manifest data line that splits into fewer than 5 fields is
rejected with `ManifestFormatError` by the row processor, and its presence
makes the whole reconciliation abort: no descriptor list is returned (not
even for rows processed earlier) and no catalog file is written. -/
theorem c2_short_row_aborts_run (cfg : CmdGoCar) (env : GoEnv)
    (lines : List Str) (line : Str) (hml : env.manifestLines = .ok lines)
    (hmem : line ∈ lines.tail) (hshort : (splitComma line).length < 5) :
    processRow cfg env line = .error .manifestFormatError ∧
    (∀ ds, (createFilesDescFromManifest cfg env).1 ≠ .ok ds) ∧
    (createFilesDescFromManifest cfg env).2 = [] := by
  have hrow : processRow cfg env line = .error .manifestFormatError := by
    rw [processRow, if_pos hshort]
  refine ⟨hrow, ?_, ?_⟩
  · intro ds hok
    rcases createFiles_ok_inv cfg env ds hok with ⟨lines2, hml2, hp⟩
    rw [hml] at hml2
    cases hml2
    rcases processRows_ok_of_mem cfg env _ _ hp line hmem with ⟨d, hd⟩
    rw [hrow] at hd
    exact RunResult.noConfusion hd
  · rw [createFilesDescFromManifest]
    split
    · rfl
    · next lines2 hml2 =>
        split
        · next ds0 hp =>
            rw [hml] at hml2
            cases hml2
            rcases processRows_ok_of_mem cfg env _ _ hp line hmem with ⟨d, hd⟩
            rw [hrow] at hd
            exact RunResult.noConfusion hd
        · rfl
        · rfl

/-- Witness for C2: the manifest `["h", "a,b"]` contains the short data row
`a,b`, the run returns no descriptors and writes nothing. -/
theorem c2_short_row_aborts_run_witness :
    wEnvShort.manifestLines = .ok ["h".toList, "a,b".toList] ∧
    "a,b".toList ∈ (["h".toList, "a,b".toList] : List Str).tail ∧
    (splitComma ("a,b".toList)).length < 5 ∧
    (processRow wCfgF wEnvShort ("a,b".toList) = .error .manifestFormatError ∧
      (∀ ds, (createFilesDescFromManifest wCfgF wEnvShort).1 ≠ .ok ds) ∧
      (createFilesDescFromManifest wCfgF wEnvShort).2 = []) :=
  ⟨rfl, by decide, by decide,
    c2_short_row_aborts_run wCfgF wEnvShort ["h".toList, "a,b".toList]
      ("a,b".toList) rfl (by decide) (by decide)⟩

/-- C3: for a successfully reconciled manifest row, the whole-directory
policy makes `SourceFileSize` the sum of all link sizes of the decoded
detail, and the per-entry policy makes it the size of the first link only. -/
theorem c3_sourceSize_policy (cfg : CmdGoCar) (env : GoEnv) (line : Str)
    (d' : FileDesc) (detail : ManifestDetail)
    (hok : processRow cfg env line = .ok d')
    (hdec : env.decodeDetail (detailField (splitComma line)) = some detail) :
    (cfg.GocarFolderBased = true →
      d'.SourceFileSize = (detail.Link.map (fun l => l.Size)).sum) ∧
    (cfg.GocarFolderBased = false →
      ∀ l0 ls, detail.Link = l0 :: ls → d'.SourceFileSize = l0.Size) := by
  rcases processRow_ok_inv cfg env line d' hok with
    ⟨detail2, d, hlen, hdec2, hres, hmd5⟩
  rw [hdec] at hdec2
  cases hdec2
  have hsz := resolveSource_ok_size cfg detail _ _ hres
  have hpres := applyMd5_ok_preserves cfg env d d' hmd5
  constructor
  · intro hf
    rw [hpres.2.2.2, hsz.1 hf, foldl_size_sum, zero_add]
  · intro hf l0 ls hl
    rw [hpres.2.2.2, hsz.2 hf l0 ls hl]

/-- Witness for C3: the whole-directory run over links of sizes 3 and 4
yields `SourceFileSize = 7`, and the per-entry conclusion holds vacuously
for the same configuration. -/
theorem c3_sourceSize_policy_witness :
    processRow wCfgF wEnv wLine = .ok wDescF ∧
    wEnv.decodeDetail (detailField (splitComma wLine)) = some wDetail ∧
    ((wCfgF.GocarFolderBased = true →
        wDescF.SourceFileSize = (wDetail.Link.map (fun l => l.Size)).sum) ∧
      (wCfgF.GocarFolderBased = false →
        ∀ l0 ls, wDetail.Link = l0 :: ls → wDescF.SourceFileSize = l0.Size)) :=
  ⟨by decide, rfl, c3_sourceSize_policy wCfgF wEnv wLine wDescF wDetail (by decide) rfl⟩

/-- C5: every descriptor produced by a successful reconciliation satisfies
`CarFileName = PayloadCid ++ ".car"` and `CarFileUrl = CarFileName`,
regardless of policy or checksum settings. -/
theorem c5_carfile_name_url (cfg : CmdGoCar) (env : GoEnv) (ds : List FileDesc)
    (d : FileDesc) (hok : (createFilesDescFromManifest cfg env).1 = .ok ds)
    (hd : d ∈ ds) :
    d.CarFileName = d.PayloadCid ++ ".car".toList ∧
    d.CarFileUrl = d.CarFileName := by
  rcases createFiles_ok_inv cfg env ds hok with ⟨lines, hml, hp⟩
  rcases processRows_mem_of_ok cfg env _ _ hp d hd with ⟨l, hl, hrow⟩
  rcases processRow_ok_inv cfg env l d hrow with ⟨detail, d0, hlen, hdec, hres, hmd5⟩
  have hbase := mkBaseDesc_car_fields cfg env (splitComma l)
  have hres' := resolveSource_ok_preserves cfg detail _ _ hres
  have hmd5' := applyMd5_ok_preserves cfg env d0 d hmd5
  constructor
  · rw [hmd5'.1, hres'.1, hmd5'.2.2.1, hres'.2.2.1, hbase.1]
  · rw [hmd5'.2.1, hres'.2.1, hmd5'.1, hres'.1, hbase.2.1]

/-- Witness for C5 on the concrete whole-directory run. -/
theorem c5_carfile_name_url_witness :
    (createFilesDescFromManifest wCfgF wEnv).1 = .ok [wDescF] ∧
    wDescF ∈ [wDescF] ∧
    (wDescF.CarFileName = wDescF.PayloadCid ++ ".car".toList ∧
      wDescF.CarFileUrl = wDescF.CarFileName) :=
  ⟨by decide, by decide,
    c5_carfile_name_url wCfgF wEnv [wDescF] wDescF (by decide) (by decide)⟩

/-- C7: when checksum computation is not requested, every descriptor of a
successful reconciliation has empty `SourceFileMd5` and `CarFileMd5`. -/
theorem c7_no_md5_means_empty (cfg : CmdGoCar) (env : GoEnv)
    (ds : List FileDesc) (d : FileDesc) (hmd : cfg.GenerateMd5 = false)
    (hok : (createFilesDescFromManifest cfg env).1 = .ok ds) (hd : d ∈ ds) :
    d.SourceFileMd5 = [] ∧ d.CarFileMd5 = [] := by
  rcases createFiles_ok_inv cfg env ds hok with ⟨lines, hml, hp⟩
  rcases processRows_mem_of_ok cfg env _ _ hp d hd with ⟨l, hl, hrow⟩
  rcases processRow_ok_inv cfg env l d hrow with ⟨detail, d0, hlen, hdec, hres, hmd5⟩
  rw [applyMd5_of_not_md5 cfg env d0 hmd] at hmd5
  cases hmd5
  have hres' := resolveSource_ok_preserves cfg detail _ _ hres
  have hbase := mkBaseDesc_car_fields cfg env (splitComma l)
  exact ⟨hres'.2.2.2.1.trans hbase.2.2.1, hres'.2.2.2.2.trans hbase.2.2.2⟩

/-- Witness for C7 on the concrete run without checksums. -/
theorem c7_no_md5_means_empty_witness :
    wCfgF.GenerateMd5 = false ∧
    (createFilesDescFromManifest wCfgF wEnv).1 = .ok [wDescF] ∧
    wDescF ∈ [wDescF] ∧
    (wDescF.SourceFileMd5 = [] ∧ wDescF.CarFileMd5 = []) :=
  ⟨rfl, by decide, by decide,
    c7_no_md5_means_empty wCfgF wEnv [wDescF] wDescF rfl (by decide) (by decide)⟩

/-- C8: under the per-entry policy a row whose decoded detail has an empty
link list reaches the unguarded `Link[0]` access: the row processor ends in
a panic, not in an error value. -/
theorem c8_empty_links_panics (cfg : CmdGoCar) (env : GoEnv) (line : Str)
    (detail : ManifestDetail) (hpol : cfg.GocarFolderBased = false)
    (hlen : 5 ≤ (splitComma line).length)
    (hdec : env.decodeDetail (detailField (splitComma line)) = some detail)
    (hlink : detail.Link = []) :
    processRow cfg env line = .panic := by
  have hres : resolveSource cfg detail (mkBaseDesc cfg env (splitComma line))
      = .panic := by
    rw [resolveSource, if_neg (by rw [hpol]; simp), hlink]
  rw [processRow, if_neg (by omega), hdec]
  show (match resolveSource cfg detail (mkBaseDesc cfg env (splitComma line)) with
    | .ok d => applyMd5 cfg env d
    | .error e => RunResult.error e
    | .panic => RunResult.panic) = .panic
  rw [hres]

/-- Witness for C8 on the per-entry configuration with an empty link list. -/
theorem c8_empty_links_panics_witness :
    wCfgP.GocarFolderBased = false ∧
    5 ≤ (splitComma wLine).length ∧
    wEnvEmptyLink.decodeDetail (detailField (splitComma wLine))
      = some { Name := [], Hash := [], Size := 0, Link := [] } ∧
    ({ Name := [], Hash := [], Size := 0, Link := [] } : ManifestDetail).Link = [] ∧
    processRow wCfgP wEnvEmptyLink wLine = .panic :=
  ⟨rfl, by decide, rfl, rfl,
    c8_empty_links_panics wCfgP wEnvEmptyLink wLine
      { Name := [], Hash := [], Size := 0, Link := [] } rfl (by decide) rfl rfl⟩

/-- Counterexample for C4: the first column of the header row written by
`WriteCarFilesToCsvFile` is `uuid`, not `id` as the claim asserts, already
for the empty descriptor list. -/
theorem c4_counterexample_header_first_column :
    (csvRows []).getD 0 [] = csvHeaders ∧
    csvHeaders.getD 0 [] = "uuid".toList ∧
    (csvRows []).getD 0 [] ≠ specHeaderRow := by
  refine ⟨rfl, rfl, ?_⟩
  intro h
  have h0 : csvHeaders.getD 0 [] = specHeaderRow.getD 0 [] := by rw [← h]; rfl
  revert h0
  decide

/-- C4 (amended): the tabular export's first row is a header of exactly 15
columns in the order uuid, source_file_name, source_file_path,
source_file_md5, source_file_size, car_file_name, car_file_path,
car_file_md5, car_file_url, car_file_size, pay_load_cid, piece_cid,
start_epoch, source_id, deals — the first column is `uuid`, not `id` — and
every data row has exactly 15 columns. -/
theorem c4_header_and_column_count (carFiles : List FileDesc) :
    csvRows carFiles
      = ["uuid".toList, "source_file_name".toList, "source_file_path".toList,
         "source_file_md5".toList, "source_file_size".toList,
         "car_file_name".toList, "car_file_path".toList, "car_file_md5".toList,
         "car_file_url".toList, "car_file_size".toList, "pay_load_cid".toList,
         "piece_cid".toList, "start_epoch".toList, "source_id".toList,
         "deals".toList] :: carFiles.map descColumns ∧
    csvHeaders.length = 15 ∧
    ∀ d : FileDesc, (descColumns d).length = 15 :=
  ⟨rfl, rfl, fun _ => rfl⟩

/-- C6: a configuration with a non-positive size limit makes the packaging
operation fail with the configuration error before any chunking, returning
no descriptors, whatever the input directory holds. -/
theorem c6_nonpositive_size_limit (cfg : CmdGoCar) (env : GoEnv)
    (hsize : cfg.GocarFileSizeLimit ≤ 0)
    (hdir : env.createOutDirResult = .ok ()) :
    CreateGoCarFiles cfg env = (.error .configurationError, []) := by
  rw [CreateGoCarFiles]
  split
  · next e he =>
      rw [hdir] at he
      exact Except.noConfusion he
  · rw [if_pos hsize]

/-- Witness for C6 with size limit 0. -/
theorem c6_nonpositive_size_limit_witness :
    wCfgZero.GocarFileSizeLimit ≤ 0 ∧
    wEnv.createOutDirResult = .ok () ∧
    CreateGoCarFiles wCfgZero wEnv = (.error .configurationError, []) :=
  ⟨by decide, rfl, c6_nonpositive_size_limit wCfgZero wEnv (by decide) rfl⟩

/-- C9: restore returns exactly the outcome of ensuring the output
directory; once that succeeds it reports success and invokes the extract and
merge primitives without observing them, so their outcomes never change the
returned value. -/
theorem c9_restore_mirrors_mkdir (cfg : CmdGoCar) (env : RestoreEnv) :
    (RestoreCarToFiles cfg env).1 = env.createOutDirResult ∧
    (env.createOutDirResult = .ok () →
      RestoreCarToFiles cfg env
        = (.ok (), [RestorePrim.carTo, RestorePrim.merge])) ∧
    ∀ env2 : RestoreEnv, env2.createOutDirResult = env.createOutDirResult →
      RestoreCarToFiles cfg env2 = RestoreCarToFiles cfg env := by
  refine ⟨?_, ?_, ?_⟩
  · rw [RestoreCarToFiles]
    cases h : env.createOutDirResult with
    | error e => rfl
    | ok u => cases u; rfl
  · intro h
    rw [RestoreCarToFiles, h]
  · intro env2 h2
    rw [RestoreCarToFiles, RestoreCarToFiles, h2]

/-- Witness for C9: with a succeeding directory creation, restore succeeds
and is unchanged when the extract and merge primitives fail. -/
theorem c9_restore_mirrors_mkdir_witness :
    (RestoreCarToFiles wCfgF wREnv).1 = wREnv.createOutDirResult ∧
    RestoreCarToFiles wCfgF wREnv
      = (.ok (), [RestorePrim.carTo, RestorePrim.merge]) ∧
    RestoreCarToFiles wCfgF wREnv2 = RestoreCarToFiles wCfgF wREnv :=
  ⟨(c9_restore_mirrors_mkdir wCfgF wREnv).1,
    (c9_restore_mirrors_mkdir wCfgF wREnv).2.1 rfl,
    (c9_restore_mirrors_mkdir wCfgF wREnv).2.2 wREnv2 rfl⟩

theorem httpPost_blocked (m : MetaClient) (env : ClientEnv) (p : JsonRpcParams)
    (h : m.key = "" ∨ m.token = "" ∨ m.conf = none) :
    ∃ e, httpPost m env p = (.error e, []) := by
  rw [httpPost]
  by_cases hkt : m.key = "" ∨ m.token = ""
  · rw [if_pos hkt]
    exact ⟨_, rfl⟩
  · rw [if_neg hkt]
    rcases h with hk | ht | hc
    · exact absurd (Or.inl hk) hkt
    · exact absurd (Or.inr ht) hkt
    · rw [hc]
      exact ⟨_, rfl⟩

theorem postAndDecode_blocked {α : Type} (m : MetaClient) (env : ClientEnv)
    (p : JsonRpcParams) (dec : Bytes → Option (RpcResult α))
    (h : m.key = "" ∨ m.token = "" ∨ m.conf = none) :
    isClientError (postAndDecode m env p dec).1 = true ∧
    (postAndDecode m env p dec).2 = [] := by
  rcases httpPost_blocked m env p h with ⟨e, he⟩
  rw [postAndDecode, he]
  exact ⟨rfl, rfl⟩

/-- C10: whenever the client's key or token is empty or no configuration has
been set, each of the six remote-catalog operations fails with an error and
issues no network request. -/
theorem c10_bad_credentials_block_requests (m : MetaClient) (env : ClientEnv)
    (h : m.key = "" ∨ m.token = "" ∨ m.conf = none) :
    ∀ (dn ipfsCid : String) (l : List IpfsData)
      (pageNum size datasetId : Int) (cids : List String),
      (isClientError (Backup m env dn l).1 = true ∧ (Backup m env dn l).2 = []) ∧
      (isClientError (ListDatasets m env dn pageNum size).1 = true ∧
        (ListDatasets m env dn pageNum size).2 = []) ∧
      (isClientError (ListStatus m env dn ipfsCid pageNum size).1 = true ∧
        (ListStatus m env dn ipfsCid pageNum size).2 = []) ∧
      (isClientError (SourceFileInfo m env ipfsCid).1 = true ∧
        (SourceFileInfo m env ipfsCid).2 = []) ∧
      (isClientError (DownloadFileInfoOp m env ipfsCid).1 = true ∧
        (DownloadFileInfoOp m env ipfsCid).2 = []) ∧
      (isClientError (Rebuild m env datasetId cids).1 = true ∧
        (Rebuild m env datasetId cids).2 = []) := by
  intro dn ipfsCid l pageNum size datasetId cids
  refine ⟨?_, ?_, ?_, ?_, ?_, ?_⟩
  · by_cases hl : l.length = 0
    · rw [Backup, if_pos hl]
      exact ⟨rfl, rfl⟩
    · rw [Backup, if_neg hl]
      exact postAndDecode_blocked m env _ _ h
  · exact postAndDecode_blocked m env _ _ h
  · exact postAndDecode_blocked m env _ _ h
  · exact postAndDecode_blocked m env _ _ h
  · exact postAndDecode_blocked m env _ _ h
  · exact postAndDecode_blocked m env _ _ h

/-- Witness for C10 on a client with an empty key. -/
theorem c10_bad_credentials_block_requests_witness :
    (wClient.key = "" ∨ wClient.token = "" ∨ wClient.conf = none) ∧
    ((isClientError (Backup wClient wClientEnv "d" []).1 = true ∧
        (Backup wClient wClientEnv "d" []).2 = []) ∧
      (isClientError (ListDatasets wClient wClientEnv "d" 1 10).1 = true ∧
        (ListDatasets wClient wClientEnv "d" 1 10).2 = []) ∧
      (isClientError (ListStatus wClient wClientEnv "d" "c" 1 10).1 = true ∧
        (ListStatus wClient wClientEnv "d" "c" 1 10).2 = []) ∧
      (isClientError (SourceFileInfo wClient wClientEnv "c").1 = true ∧
        (SourceFileInfo wClient wClientEnv "c").2 = []) ∧
      (isClientError (DownloadFileInfoOp wClient wClientEnv "c").1 = true ∧
        (DownloadFileInfoOp wClient wClientEnv "c").2 = []) ∧
      (isClientError (Rebuild wClient wClientEnv 5 []).1 = true ∧
        (Rebuild wClient wClientEnv 5 []).2 = [])) :=
  ⟨Or.inl rfl,
    c10_bad_credentials_block_requests wClient wClientEnv (Or.inl rfl)
      "d" "c" [] 1 10 5 []⟩
